import Mathlib

/-!
Verification of `puppet_watcher.py`.

A shallow embedding in Lean 4 of the HTML-to-event extraction pipeline of
`puppet_watcher.py` (functions `_norm_space`, `_extract_year_month_from_container`,
`_extract_day_and_month_from_text`, `parse_afisha`, `load_seen`, `save_seen`,
and the table `MONTHS_RU`), together with theorems settling the specification
claims about it.

The document tree handed to `parse_afisha` by BeautifulSoup is embedded as an
inductive `Node` type; CSS-selector queries, `get_text(" ", strip=True)`, the
two regular-expression searches, Python string methods (`lower`, `strip`,
truthiness) and `urllib.parse.urljoin` are modelled explicitly below, each with
a comment naming what it embeds.
-/

namespace PuppetWatcher

/-- Python whitespace for `\s` / `str.strip()` / `str.isspace()` in Unicode
mode: ASCII whitespace plus the file separators, NEL, NBSP, ogham, the
U+2000–U+200A spaces, line/paragraph separators, NNBSP, MMSP and ideographic
space. -/
def pySpace (c : Char) : Bool :=
  c = ' ' || c = '\t' || c = '\n' || c = '\x0b' || c = '\x0c' || c = '\r' ||
  c = '\x1c' || c = '\x1d' || c = '\x1e' || c = '\x1f' || c = '\u0085' ||
  c = ' ' || c = ' ' ||
  (0x2000 ≤ c.toNat && c.toNat ≤ 0x200a) ||
  c = ' ' || c = ' ' || c = ' ' || c = ' ' || c = '　'

/-- The four explicit replacements of `_norm_space` (line 87 of the source):
NBSP, en-space, em-space and thin space each become a plain ASCII space. -/
def replSpace (c : Char) : Char :=
  if c = ' ' || c = ' ' || c = ' ' || c = ' ' then ' ' else c

/-- `re.sub(r"\s+", " ", s)`: every maximal run of whitespace becomes one
plain space.  The boolean argument records whether the previous character
belonged to a whitespace run. -/
def collapseWs : Bool → List Char → List Char
  | _, [] => []
  | inRun, c :: cs =>
    if pySpace c then
      if inRun then collapseWs true cs else ' ' :: collapseWs true cs
    else c :: collapseWs false cs

/-- Python `str.strip()` on a character list: drop leading and trailing
whitespace. -/
def pyStripList (l : List Char) : List Char :=
  ((l.dropWhile pySpace).reverse.dropWhile pySpace).reverse

/-- Python `str.strip()`. -/
def pyStrip (s : String) : String := String.mk (pyStripList s.data)

/-- `_norm_space` (source lines 84–89): return empty input unchanged, replace
the four listed space variants by ASCII space, collapse whitespace runs,
strip. -/
def norm_space (s : String) : String :=
  if s = "" then s
  else String.mk (pyStripList (collapseWs false (s.data.map replSpace)))

/-- Python `str.lower()` restricted to the alphabets occurring in this page
(ASCII and Cyrillic, including Ё): uppercase ASCII and uppercase Cyrillic
А–Я and Ё map to their lowercase forms; everything else is unchanged. -/
def pyLowerChar (c : Char) : Char :=
  if 'A' ≤ c && c ≤ 'Z' then Char.ofNat (c.toNat + 0x20)
  else if 0x410 ≤ c.toNat && c.toNat ≤ 0x42f then Char.ofNat (c.toNat + 0x20)
  else if c.toNat = 0x401 then Char.ofNat 0x451
  else c

/-- Python `str.lower()` on a string. -/
def pyLower (s : String) : String := String.mk (s.data.map pyLowerChar)

/-- A word character for the regex `\b` boundary (Python `\w` in Unicode
mode, restricted to the alphabets occurring in this page): ASCII letters,
digits, underscore, and Cyrillic U+0400–U+04FF. -/
def isWordChar (c : Char) : Bool :=
  c.isDigit || c.isAlpha || c = '_' || (0x400 ≤ c.toNat && c.toNat ≤ 0x4ff)

/-- `re.search(r"\b(\d{1,2})\b", t)` (source line 110): scan left to right;
at a position preceded by a non-word character (or the start), greedily take
two digits, else one, and require a word boundary after; on failure advance
one character.  Returns the matched digits. -/
def searchDay : Bool → List Char → Option String
  | _, [] => none
  | prevWord, c :: rest =>
    if prevWord || !c.isDigit then searchDay (isWordChar c) rest
    else
      match rest with
      | [] => some (String.mk [c])
      | d :: rest2 =>
        if d.isDigit then
          match rest2 with
          | [] => some (String.mk [c, d])
          | e :: _ =>
            if isWordChar e then searchDay (isWordChar c) rest
            else some (String.mk [c, d])
        else
          if isWordChar d then searchDay (isWordChar c) rest
          else some (String.mk [c])

/-- `b.data` is a prefix of `l`, by direct comparison. -/
def prefixEq : List Char → List Char → Bool
  | [], _ => true
  | _ :: _, [] => false
  | a :: as, b :: bs => a = b && prefixEq as bs

/-- Python `w in t` (substring containment) on character lists. -/
def hasSub (needle : List Char) : List Char → Bool
  | [] => prefixEq needle []
  | hay@(_ :: rest) => prefixEq needle hay || hasSub needle rest

/-- `MONTHS_RU` (source lines 68–82), in source order: both genitive and
nominative forms of each Russian month name mapped to a two-digit month
number. -/
def MONTHS_RU : List (String × String) :=
  [("января", "01"), ("январь", "01"),
   ("февраля", "02"), ("февраль", "02"),
   ("марта", "03"), ("март", "03"),
   ("апреля", "04"), ("апрель", "04"),
   ("мая", "05"), ("май", "05"),
   ("июня", "06"), ("июнь", "06"),
   ("июля", "07"), ("июль", "07"),
   ("августа", "08"), ("август", "08"),
   ("сентября", "09"), ("сентябрь", "09"),
   ("октября", "10"), ("октябрь", "10"),
   ("ноября", "11"), ("ноябрь", "11"),
   ("декабря", "12"), ("декабрь", "12")]

/-- `MONTHS_RU.get(w)`: dictionary lookup. -/
def monthsLookup (w : String) : Option String :=
  (MONTHS_RU.find? (fun p => p.1 == w)).map (fun p => p.2)

/-- The loop over `MONTHS_RU.keys()` in `_extract_day_and_month_from_text`
(source lines 113–117): the first key that is a substring of `t`. -/
def firstMonthWord (t : String) : Option String :=
  (MONTHS_RU.find? (fun p => hasSub p.1.data t.data)).map (fun p => p.1)

/-- `_extract_day_and_month_from_text` (source lines 104–118): normalise and
lowercase the text, take the first standalone one-or-two-digit number as the
day, and the first month word found as a substring; return `none` when no
day is found. -/
def extract_day_and_month_from_text (text : String) :
    Option (String × Option String) :=
  let t := pyLower (norm_space text)
  match searchDay false t.data with
  | none => none
  | some day => some (day, firstMonthWord t)

/-- One attempt of `re.search(r"item_mounth-(\d{4})-(\d{2})", s)` at the
head of `l`: the literal `item_mounth-`, four digits, a dash, two digits. -/
def matchYMHere (l : List Char) : Option (String × String) :=
  if prefixEq "item_mounth-".data l then
    match l.drop 12 with
    | y1 :: y2 :: y3 :: y4 :: h :: m1 :: m2 :: _ =>
      if y1.isDigit && y2.isDigit && y3.isDigit && y4.isDigit &&
         h = '-' && m1.isDigit && m2.isDigit
      then some (String.mk [y1, y2, y3, y4], String.mk [m1, m2])
      else none
    | _ => none
  else none

/-- `re.search(r"item_mounth-(\d{4})-(\d{2})", s)` (source line 98): try
every start position left to right. -/
def searchYM : List Char → Option (String × String)
  | [] => none
  | l@(_ :: rest) =>
    match matchYMHere l with
    | some r => some r
    | none => searchYM rest

/-- The BeautifulSoup document tree, as `parse_afisha` consumes it: an
element carries its tag name, its `class` token list (`get("class", [])`),
its other attributes, and its children; text nodes carry their string. -/
inductive Node where
  | text (s : String)
  | tag (name : String) (classes : List String) (attrs : List (String × String))
      (children : List Node)

/-- CSS class membership: `.foo` matches a tag whose class list contains
`foo`.  Text nodes match nothing. -/
def hasClass (n : Node) (c : String) : Bool :=
  match n with
  | .text _ => false
  | .tag _ classes _ _ => classes.contains c

/-- Tag-name test for a type selector such as `a`. -/
def isTagNamed (n : Node) (nm : String) : Bool :=
  match n with
  | .text _ => false
  | .tag name _ _ _ => name == nm

/-- Attribute presence, for the `[href]` part of a selector. -/
def hasAttr (n : Node) (k : String) : Bool :=
  match n with
  | .text _ => false
  | .tag _ _ attrs _ => attrs.any (fun p => p.1 == k)

/-- `tag.get(k, "")`: the attribute's value, or `""` when absent. -/
def getAttr (n : Node) (k : String) : String :=
  match n with
  | .text _ => ""
  | .tag _ _ attrs _ =>
    match attrs.find? (fun p => p.1 == k) with
    | some p => p.2
    | none => ""

/-- Python truthiness of a document node, as line 134's `if not info` and
line 150's `if not (p_day and p_time and p_title and a_link)` evaluate it:
a bs4 `Tag` defines `__len__` as the number of its contents and no
`__bool__`, so a childless element is falsy; a `NavigableString` is a
`str`, falsy exactly when empty. -/
def tagTruthy (n : Node) : Bool :=
  match n with
  | .text s => s ≠ ""
  | .tag _ _ _ children => !children.isEmpty

/-- `sep.join(parts)`: concatenation with a separator between entries. -/
def joinSep (sep : String) : List String → String
  | [] => ""
  | [s] => s
  | s :: rest => s ++ sep ++ joinSep sep rest

/-- `" ".join(cur.get("class", []))` (source line 97). -/
def classesJoined (n : Node) : String :=
  match n with
  | .text _ => ""
  | .tag _ classes _ _ => joinSep " " classes

mutual

/-- The string descendants of a node in document order (BeautifulSoup
`Tag.strings`). -/
def nodeTexts : Node → List String
  | .text s => [s]
  | .tag _ _ _ children => nodesTexts children

/-- `nodeTexts` over a child list. -/
def nodesTexts : List Node → List String
  | [] => []
  | n :: ns => nodeTexts n ++ nodesTexts ns

end

/-- `get_text(" ", strip=True)`: each descendant string is stripped,
whitespace-only strings are dropped, and the rest are joined with a single
space. -/
def getTextSp (n : Node) : String :=
  joinSep " " (((nodeTexts n).map pyStrip).filter (fun s => s ≠ ""))

mutual

/-- Pre-order search of a subtree (the node itself, then its descendants)
for the first node satisfying `p`. -/
def findNode (p : Node → Bool) : Node → Option Node
  | .text s => if p (.text s) then some (.text s) else none
  | .tag nm cls ats ch =>
    if p (.tag nm cls ats ch) then some (.tag nm cls ats ch)
    else findNodes p ch

/-- `findNode` over a sibling list, in document order. -/
def findNodes (p : Node → Bool) : List Node → Option Node
  | [] => none
  | n :: ns =>
    match findNode p n with
    | some r => some r
    | none => findNodes p ns

end

/-- `select_one` scoped to an element: the first strict descendant, in
document order, satisfying `p`. -/
def selectOne (n : Node) (p : Node → Bool) : Option Node :=
  match n with
  | .text _ => none
  | .tag _ _ _ children => findNodes p children

mutual

/-- `soup.select(".afisha_listcontainer .afisha_item")` with ancestor
tracking: walk the tree in document order, carrying the reversed ancestor
path (nearest first); a tag is collected when its class list contains
`afisha_item` and some strict ancestor's class list contains
`afisha_listcontainer`. -/
def collectNode (anc : List Node) : Node → List (List Node × Node)
  | .text _ => []
  | .tag nm cls ats ch =>
    (if hasClass (.tag nm cls ats ch) "afisha_item" &&
        anc.any (fun a => hasClass a "afisha_listcontainer")
     then [(anc, Node.tag nm cls ats ch)] else [])
    ++ collectNodes (Node.tag nm cls ats ch :: anc) ch

/-- `collectNode` over a sibling list. -/
def collectNodes : List Node → List Node → List (List Node × Node)
  | _, [] => []
  | anc, n :: ns => collectNode anc n ++ collectNodes anc ns

end

/-- `_extract_year_month_from_container` (source lines 91–102), applied to
the chain node-then-ancestors: the first link whose joined class string
matches `item_mounth-(\d{4})-(\d{2})` yields the (year, month) pair. -/
def extractYMChain : List Node → Option (String × String)
  | [] => none
  | n :: rest =>
    match searchYM (classesJoined n).data with
    | some ym => some ym
    | none => extractYMChain rest

/-- `s` starts with `pre`, by character-list comparison. -/
def strStarts (s pre : String) : Bool := prefixEq pre.data s.data

/-- `s` ends with a `/` (the only suffix test `parse_afisha` performs). -/
def endsWithSlash (s : String) : Bool :=
  match s.data.getLast? with
  | some c => c = '/'
  | none => false

/-- The scheme of a URL reference, as `urllib.parse.urlsplit` recognises
it: a leading letter followed by letters, digits, `+`, `-` or `.`, then a
colon.  Returns the scheme (lowercased) and the remainder after the
colon. -/
def extractScheme (u : String) : Option (String × String) :=
  match u.data with
  | [] => none
  | c :: _ =>
    if c.isAlpha then
      let pre := u.data.takeWhile
        (fun d => d.isAlpha || d.isDigit || d = '+' || d = '-' || d = '.')
      match u.data.drop pre.length with
      | ':' :: r => some (String.mk (pre.map pyLowerChar), String.mk r)
      | _ => none
    else none

/-- Split an http(s) URL into its scheme and the remainder after `://`. -/
def schemeSplit (u : String) : Option (String × String) :=
  if strStarts u "https://" then some ("https", String.mk (u.data.drop 8))
  else if strStarts u "http://" then some ("http", String.mk (u.data.drop 7))
  else none

/-- The authority of an http(s) URL remainder: everything before the first
`/`. -/
def hostOf (rest : String) : String :=
  String.mk (rest.data.takeWhile (fun c => c ≠ '/'))

/-- The path (with query/fragment) of an http(s) URL remainder: everything
from the first `/` on (empty when there is no `/`). -/
def pathOf (rest : String) : String :=
  String.mk (rest.data.dropWhile (fun c => c ≠ '/'))

/-- The directory part of a path: up to and including the last `/`
(empty when the path has no `/`). -/
def dirOf (path : String) : String :=
  String.mk (path.data.reverse.dropWhile (fun c => c ≠ '/')).reverse

/-- Models `urllib.parse.urljoin(base, url)` for http(s) bases as used by
`parse_afisha` (source line 210): an empty reference returns the base; a
reference carrying a scheme is returned as is (a scheme other than the
base's is never resolved against the base, and a same-scheme reference as
they occur in documents carries an authority, which urllib likewise
returns unchanged); a protocol-relative reference takes the base's
scheme; an absolute-path reference replaces the base's path; anything
else is resolved against the base path's directory. -/
def urljoin (base url : String) : String :=
  if base = "" then url
  else if url = "" then base
  else
    match extractScheme url with
    | some _ => url
    | none =>
      match schemeSplit base with
      | none => url
      | some (sch, rest) =>
        if strStarts url "//" then sch ++ ":" ++ url
        else if strStarts url "/" then sch ++ "://" ++ hostOf rest ++ url
        else
          let d := dirOf (pathOf rest)
          sch ++ "://" ++ hostOf rest ++ (if d = "" then "/" else d) ++ url

/-- The event dictionary appended by `parse_afisha` (source lines 217–225). -/
structure Event where
  id : String
  date : String
  time : String
  title : String
  url : String
deriving DecidableEq

/-- Python truthiness of an optional string: `None` and `""` are falsy. -/
def truthyOptStr (o : Option String) : Bool :=
  match o with
  | none => false
  | some s => s ≠ ""

/-- The month fallback of `parse_afisha` (source lines 181–186): keep the
container month when it is truthy; otherwise, when a month word was found,
replace the month by its dictionary value if the lookup succeeds. -/
def resolveMonthNum (month0 : Option String) (word : Option String) :
    Option String :=
  if truthyOptStr month0 then month0
  else
    match word with
    | none => month0
    | some w =>
      if w = "" then month0
      else
        match monthsLookup (pyLower w) with
        | some mn => some mn
        | none => month0

/-- The year fallback of `parse_afisha` (source lines 189–192): the
container year when truthy, else the current system year (a parameter of
the embedding). -/
def resolveYear (year0 : Option String) (currentYear : String) : String :=
  match year0 with
  | none => currentYear
  | some y => if y = "" then currentYear else y

/-- The day padding of `parse_afisha` (source lines 194–196): a single
digit gains a leading zero. -/
def padDay (day : String) : String :=
  if day.data.length = 1 then "0" ++ day else day

/-- The body of one iteration of the card loop of `parse_afisha` (source
lines 129–228): given the page URL, the current year, the card's strict
ancestors (nearest first) and the card itself, produce the assembled event,
or `none` when the card is skipped.  Line 134's `if not info` and line
150's `if not (p_day and p_time and p_title and a_link)` test Python
truthiness, so a located but falsy (childless) element also skips the
card. -/
def parseItem (afishaUrl currentYear : String) (anc : List Node) (item : Node) :
    Option Event :=
  match selectOne item (fun n => hasClass n "afisha-info") with
  | none => none
  | some info =>
    if !tagTruthy info then none else
    match selectOne info (fun n => hasClass n "afisha-day"),
          selectOne info (fun n => hasClass n "afisha-time"),
          selectOne info (fun n => hasClass n "afisha-title"),
          selectOne item (fun n =>
            isTagNamed n "a" && hasClass n "afisha_item-hover" && hasAttr n "href") with
    | some pDay, some pTime, some pTitle, some aLink =>
      if !(tagTruthy pDay && tagTruthy pTime && tagTruthy pTitle && tagTruthy aLink)
      then none else
      let dayText := getTextSp pDay
      let timeText := norm_space (getTextSp pTime)
      let title := norm_space (getTextSp pTitle)
      let href := pyStrip (getAttr aLink "href")
      let ym := extractYMChain (item :: anc)
      match extract_day_and_month_from_text dayText with
      | none => none
      | some (day0, monthWord) =>
        let monthNum := resolveMonthNum (ym.map (fun p => p.2)) monthWord
        let year := resolveYear (ym.map (fun p => p.1)) currentYear
        let dayNum := padDay day0
        if truthyOptStr (some year) && truthyOptStr monthNum &&
           truthyOptStr (some dayNum) then
          match monthNum with
          | none => none
          | some mn =>
            let dateStr := dayNum ++ "." ++ mn ++ "." ++ year
            let base := if endsWithSlash afishaUrl then afishaUrl else afishaUrl ++ "/"
            let urlAbs := urljoin base href
            let itemId := dateStr ++ " " ++ timeText ++ " | " ++ title ++ " | " ++ urlAbs
            some ⟨itemId, dateStr, timeText, title, urlAbs⟩
        else none
    | _, _, _, _ => none

/-- The `for` loop of `parse_afisha` (source lines 129–228) with its
explicit `results` accumulator: each card appends at most one event. -/
def parseLoop (afishaUrl currentYear : String) :
    List (List Node × Node) → List Event → List Event
  | [], acc => acc
  | (anc, item) :: rest, acc =>
    match parseItem afishaUrl currentYear anc item with
    | none => parseLoop afishaUrl currentYear rest acc
    | some e => parseLoop afishaUrl currentYear rest (acc ++ [e])

/-- `parse_afisha` (source lines 120–233): select the cards of the parsed
document (given by its list of root nodes) and run the assembly loop.  The
page URL (module global `AFISHA_URL`) and the current year
(`datetime.now().year`) are parameters of the embedding. -/
def parse_afisha (afishaUrl currentYear : String) (roots : List Node) :
    List Event :=
  parseLoop afishaUrl currentYear (collectNodes [] roots) []

/-- The netloc `urllib.parse.urlsplit` extracts from a reference: the part
after a leading `//` (with or without a preceding scheme), up to the first
`/`, `?` or `#`; empty when the reference has no authority. -/
def refNetloc (u : String) : String :=
  match extractScheme u with
  | some (_, rest) =>
    if strStarts rest "//" then
      String.mk ((rest.data.drop 2).takeWhile
        (fun c => c ≠ '/' && c ≠ '?' && c ≠ '#'))
    else ""
  | none =>
    if strStarts u "//" then
      String.mk ((u.data.drop 2).takeWhile
        (fun c => c ≠ '/' && c ≠ '?' && c ≠ '#'))
    else ""

/-- The `raise ValueError("Invalid IPv6 URL")` condition of
`urllib.parse.urlsplit`: the netloc holds `[` without `]`, or `]` without
`[`. -/
def invalidIPv6 (netloc : String) : Bool :=
  (netloc.data.contains '[' && !netloc.data.contains ']') ||
  (netloc.data.contains ']' && !netloc.data.contains '[')

/-- `urllib.parse.urljoin` with its exception path surfaced: after the two
empty-argument shortcuts, urljoin splits the base and then the reference,
and either split raises `ValueError("Invalid IPv6 URL")` on a malformed
bracketed netloc; otherwise the join proceeds as in `urljoin`. -/
def urljoinExc (base url : String) : Except String String :=
  if base = "" then .ok url
  else if url = "" then .ok base
  else if invalidIPv6 (refNetloc base) then .error "Invalid IPv6 URL"
  else if invalidIPv6 (refNetloc url) then .error "Invalid IPv6 URL"
  else .ok (urljoin base url)

/-- `parseItem` with `urljoin`'s `ValueError` path surfaced: identical card
processing, but when resolving the href raises (uncaught at source line
210), the error propagates instead of the card being skipped. -/
def parseItemExc (afishaUrl currentYear : String) (anc : List Node)
    (item : Node) : Except String (Option Event) :=
  match selectOne item (fun n => hasClass n "afisha-info") with
  | none => .ok none
  | some info =>
    if !tagTruthy info then .ok none else
    match selectOne info (fun n => hasClass n "afisha-day"),
          selectOne info (fun n => hasClass n "afisha-time"),
          selectOne info (fun n => hasClass n "afisha-title"),
          selectOne item (fun n =>
            isTagNamed n "a" && hasClass n "afisha_item-hover" && hasAttr n "href") with
    | some pDay, some pTime, some pTitle, some aLink =>
      if !(tagTruthy pDay && tagTruthy pTime && tagTruthy pTitle && tagTruthy aLink)
      then .ok none else
      let dayText := getTextSp pDay
      let timeText := norm_space (getTextSp pTime)
      let title := norm_space (getTextSp pTitle)
      let href := pyStrip (getAttr aLink "href")
      let ym := extractYMChain (item :: anc)
      match extract_day_and_month_from_text dayText with
      | none => .ok none
      | some (day0, monthWord) =>
        let monthNum := resolveMonthNum (ym.map (fun p => p.2)) monthWord
        let year := resolveYear (ym.map (fun p => p.1)) currentYear
        let dayNum := padDay day0
        if truthyOptStr (some year) && truthyOptStr monthNum &&
           truthyOptStr (some dayNum) then
          match monthNum with
          | none => .ok none
          | some mn =>
            let dateStr := dayNum ++ "." ++ mn ++ "." ++ year
            let base := if endsWithSlash afishaUrl then afishaUrl else afishaUrl ++ "/"
            match urljoinExc base href with
            | .error msg => .error msg
            | .ok urlAbs =>
              let itemId := dateStr ++ " " ++ timeText ++ " | " ++ title ++ " | " ++ urlAbs
              .ok (some ⟨itemId, dateStr, timeText, title, urlAbs⟩)
        else .ok none
    | _, _, _, _ => .ok none

/-- The card loop with the exception path surfaced: an error raised while
processing a card aborts the whole parse, as the uncaught exception does
in the source. -/
def parseLoopExc (afishaUrl currentYear : String) :
    List (List Node × Node) → List Event → Except String (List Event)
  | [], acc => .ok acc
  | (anc, item) :: rest, acc =>
    match parseItemExc afishaUrl currentYear anc item with
    | .error msg => .error msg
    | .ok none => parseLoopExc afishaUrl currentYear rest acc
    | .ok (some e) => parseLoopExc afishaUrl currentYear rest (acc ++ [e])

/-- `parse_afisha` (source lines 120–233) with the `ValueError` that
`urljoin` can raise at line 210 made explicit: the source has no
`try/except` around the card loop, so such an error aborts the batch. -/
def parse_afishaExc (afishaUrl currentYear : String) (roots : List Node) :
    Except String (List Event) :=
  parseLoopExc afishaUrl currentYear (collectNodes [] roots) []

/-- `load_seen` (source lines 24–31).  The store is modelled as
`Option (List String)`: `none` when the file is missing, unreadable or not
a JSON string array (every such case yields the empty set), `some l` when
it holds the JSON array `l`.  The Python `set` is modelled as a duplicate-free
list, its identity being its membership; `set(json.load(f))` keeps each
element once. -/
def load_seen (store : Option (List String)) : List String :=
  match store with
  | none => []
  | some l => l.dedup

/-- `save_seen` (source lines 33–36): overwrite the store with
`list(seen)`, an enumeration of the set. -/
def save_seen (seen : List String) : Option (List String) :=
  some seen

/-! ## Concrete scenario documents -/

/-- Scenario card (spec end-to-end scenario 2): day label `5 Ноября, Ср`,
time `11:00`, title `Буратино`, relative detail link. -/
def card1 : Node :=
  .tag "div" ["afisha_item"] []
    [.tag "div" ["afisha-info"] []
      [.tag "p" ["afisha-day"] [] [.text "5 Ноября, Ср"],
       .tag "p" ["afisha-time"] [] [.text "11:00"],
       .tag "p" ["afisha-title"] [] [.text "Буратино"]],
     .tag "a" ["afisha_item-hover"] [("href", "/afisha/buratino#tickets")]
       [.text "Подробнее"]]

/-- Scenario document: listing container, month bucket `item_mounth-2025-11`,
one card. -/
def doc1 : Node :=
  .tag "div" ["afisha_listcontainer"] []
    [.tag "div" ["item_mounth-2025-11"] [] [card1]]

/-- A card identical to `card1` except that its time label holds only
whitespace, so the time text is empty after normalisation. -/
def cardEmptyTime : Node :=
  .tag "div" ["afisha_item"] []
    [.tag "div" ["afisha-info"] []
      [.tag "p" ["afisha-day"] [] [.text "5 Ноября, Ср"],
       .tag "p" ["afisha-time"] [] [.text " "],
       .tag "p" ["afisha-title"] [] [.text "Буратино"]],
     .tag "a" ["afisha_item-hover"] [("href", "/afisha/buratino#tickets")]
       [.text "Подробнее"]]

/-- Document containing only the empty-time card. -/
def docEmptyTime : Node :=
  .tag "div" ["afisha_listcontainer"] []
    [.tag "div" ["item_mounth-2025-11"] [] [cardEmptyTime]]

/-- Scenario card (spec end-to-end scenario 3): day label `5, Ср` — a day
but no month word — and no month-bucket ancestor. -/
def cardNoMonth : Node :=
  .tag "div" ["afisha_item"] []
    [.tag "div" ["afisha-info"] []
      [.tag "p" ["afisha-day"] [] [.text "5, Ср"],
       .tag "p" ["afisha-time"] [] [.text "11:00"],
       .tag "p" ["afisha-title"] [] [.text "Буратино"]],
     .tag "a" ["afisha_item-hover"] [("href", "/afisha/buratino#tickets")]
       [.text "Подробнее"]]

/-- Document with the month-less card directly inside the listing container
(no `item_mounth-…` bucket anywhere). -/
def docNoMonth : Node :=
  .tag "div" ["afisha_listcontainer"] [] [cardNoMonth]

/-- A card whose day label holds no digits at all, so no day can be
extracted. -/
def cardNoDay : Node :=
  .tag "div" ["afisha_item"] []
    [.tag "div" ["afisha-info"] []
      [.tag "p" ["afisha-day"] [] [.text "Ноября, Ср"],
       .tag "p" ["afisha-time"] [] [.text "11:00"],
       .tag "p" ["afisha-title"] [] [.text "Буратино"]],
     .tag "a" ["afisha_item-hover"] [("href", "/afisha/buratino#tickets")]
       [.text "Подробнее"]]

/-- Document containing only the day-less card, inside a month bucket. -/
def docNoDay : Node :=
  .tag "div" ["afisha_listcontainer"] []
    [.tag "div" ["item_mounth-2025-11"] [] [cardNoDay]]

/-- A card identical to `card1` except that its time label has no children
at all, so the located element is falsy (bs4 `len(tag) == 0`). -/
def cardTimeNoChildren : Node :=
  .tag "div" ["afisha_item"] []
    [.tag "div" ["afisha-info"] []
      [.tag "p" ["afisha-day"] [] [.text "5 Ноября, Ср"],
       .tag "p" ["afisha-time"] [] [],
       .tag "p" ["afisha-title"] [] [.text "Буратино"]],
     .tag "a" ["afisha_item-hover"] [("href", "/afisha/buratino#tickets")]
       [.text "Подробнее"]]

/-- Document containing only the childless-time card. -/
def docTimeNoChildren : Node :=
  .tag "div" ["afisha_listcontainer"] []
    [.tag "div" ["item_mounth-2025-11"] [] [cardTimeNoChildren]]

/-- A card identical to `card1` except that its detail-link href is `//[`,
which `urllib.parse.urlsplit` rejects with `ValueError("Invalid IPv6
URL")`. -/
def cardBadHref : Node :=
  .tag "div" ["afisha_item"] []
    [.tag "div" ["afisha-info"] []
      [.tag "p" ["afisha-day"] [] [.text "5 Ноября, Ср"],
       .tag "p" ["afisha-time"] [] [.text "11:00"],
       .tag "p" ["afisha-title"] [] [.text "Буратино"]],
     .tag "a" ["afisha_item-hover"] [("href", "//[")] [.text "Подробнее"]]

/-- Document containing only the malformed-href card. -/
def docBadHref : Node :=
  .tag "div" ["afisha_listcontainer"] []
    [.tag "div" ["item_mounth-2025-11"] [] [cardBadHref]]

/-- The tabular-layout row of spec end-to-end scenario 1: first cell
`11.11.2025  19:00` (double space), a ticket-vendor link titled
`Записки юного врача`. -/
def tabularDoc : Node :=
  .tag "table" [] []
    [.tag "tr" [] []
      [.tag "td" [] [] [.text "11.11.2025  19:00"],
       .tag "td" [] []
         [.tag "a" [] [("href", "https://tce.by/show/123")]
           [.text "Записки юного врача"]]]]

/-- A card whose day label carries the out-of-range day number 99. -/
def cardDay99 : Node :=
  .tag "div" ["afisha_item"] []
    [.tag "div" ["afisha-info"] []
      [.tag "p" ["afisha-day"] [] [.text "99 Ноября, Вт"],
       .tag "p" ["afisha-time"] [] [.text "11:00"],
       .tag "p" ["afisha-title"] [] [.text "Буратино"]],
     .tag "a" ["afisha_item-hover"] [("href", "/afisha/buratino#tickets")]
       [.text "Подробнее"]]

/-- Document with the day-99 card directly inside the listing container. -/
def docDay99 : Node :=
  .tag "div" ["afisha_listcontainer"] [] [cardDay99]

/-- A card whose detail link has a present but empty `href`. -/
def cardEmptyHref : Node :=
  .tag "div" ["afisha_item"] []
    [.tag "div" ["afisha-info"] []
      [.tag "p" ["afisha-day"] [] [.text "5 Ноября, Ср"],
       .tag "p" ["afisha-time"] [] [.text "11:00"],
       .tag "p" ["afisha-title"] [] [.text "Буратино"]],
     .tag "a" ["afisha_item-hover"] [("href", "")] [.text "Подробнее"]]

/-- Document containing only the empty-href card, inside a month bucket. -/
def docEmptyHref : Node :=
  .tag "div" ["afisha_listcontainer"] []
    [.tag "div" ["item_mounth-2025-11"] [] [cardEmptyHref]]

/-! ## Helper lemmas about the text normaliser -/

/-- Every character produced by `collapseWs` is a plain space or a
non-whitespace character. -/
theorem mem_collapseWs (c : Char) :
    ∀ (l : List Char) (b : Bool), c ∈ collapseWs b l →
      c = ' ' ∨ pySpace c = false := by
  intro l
  induction l with
  | nil => intro b h; simp [collapseWs] at h
  | cons d ds ih =>
    intro b h
    cases hd : pySpace d with
    | true =>
      cases b with
      | true =>
        simp only [collapseWs, hd, if_true] at h
        exact ih true h
      | false =>
        simp only [collapseWs, hd, if_true, Bool.false_eq_true, if_false,
          List.mem_cons] at h
        rcases h with h | h
        · exact Or.inl h
        · exact ih true h
    | false =>
      simp only [collapseWs, hd, Bool.false_eq_true, if_false,
        List.mem_cons] at h
      rcases h with h | h
      · exact Or.inr (h ▸ hd)
      · exact ih false h

/-- After a whitespace run has been entered, the next emitted character is
not whitespace. -/
theorem head_collapseWs_true (l : List Char) :
    ∀ c, (collapseWs true l).head? = some c → pySpace c = false := by
  induction l with
  | nil => intro c h; simp [collapseWs] at h
  | cons d ds ih =>
    intro c h
    cases hd : pySpace d with
    | true =>
      simp only [collapseWs, hd, if_true] at h
      exact ih c h
    | false =>
      simp only [collapseWs, hd, Bool.false_eq_true, if_false,
        List.head?_cons, Option.some.injEq] at h
      exact h ▸ hd

/-- The output of `collapseWs` never holds two adjacent whitespace
characters. -/
theorem chain_collapseWs :
    ∀ (l : List Char) (b : Bool),
      List.Chain' (fun a b => pySpace a = false ∨ pySpace b = false)
        (collapseWs b l) := by
  intro l
  induction l with
  | nil => intro b; simp [collapseWs]
  | cons d ds ih =>
    intro b
    cases hd : pySpace d with
    | true =>
      cases b with
      | true =>
        simp only [collapseWs, hd, if_true]; exact ih true
      | false =>
        simp only [collapseWs, hd, if_true, Bool.false_eq_true, if_false]
        refine List.chain'_cons'.mpr ⟨?_, ih true⟩
        intro y hy
        exact Or.inr (head_collapseWs_true ds y hy)
    | false =>
      simp only [collapseWs, hd, Bool.false_eq_true, if_false]
      refine List.chain'_cons'.mpr ⟨?_, ih false⟩
      intro y _
      exact Or.inl hd

/-- On a list that is already collapsed — whitespace only as single plain
spaces — `collapseWs` is the identity (in run-mode `false` always; in
run-mode `true` provided the list does not start with whitespace). -/
theorem collapseWs_id (l : List Char)
    (h1 : ∀ c ∈ l, pySpace c = true → c = ' ')
    (h2 : List.Chain' (fun a b => pySpace a = false ∨ pySpace b = false) l) :
    collapseWs false l = l ∧
      ((∀ c, l.head? = some c → pySpace c = false) → collapseWs true l = l) := by
  induction l with
  | nil => exact ⟨rfl, fun _ => rfl⟩
  | cons d ds ih =>
    obtain ⟨hrel, hchain⟩ := List.chain'_cons'.mp h2
    have ih' := ih (fun c hc => h1 c (List.mem_cons_of_mem d hc)) hchain
    cases hd : pySpace d with
    | true =>
      have hdsp : d = ' ' := h1 d (List.mem_cons_self d ds) hd
      have hhead : ∀ c, ds.head? = some c → pySpace c = false := by
        intro c hc
        rcases hrel c hc with h | h
        · rw [hd] at h; cases h
        · exact h
      constructor
      · simp only [collapseWs, hd, if_true, Bool.false_eq_true, if_false]
        rw [ih'.2 hhead, hdsp]
      · intro hcontra
        have := hcontra d rfl
        rw [hd] at this; cases this
    | false =>
      constructor
      · simp only [collapseWs, hd, Bool.false_eq_true, if_false]
        rw [ih'.1]
      · intro _
        simp only [collapseWs, hd, Bool.false_eq_true, if_false]
        rw [ih'.1]

/-- The head surviving `dropWhile` fails the dropped predicate. -/
theorem head_dropWhile (p : Char → Bool) :
    ∀ (l : List Char) (c : Char), (l.dropWhile p).head? = some c → p c = false := by
  intro l
  induction l with
  | nil => intro c h; simp at h
  | cons d ds ih =>
    intro c h
    cases hd : p d with
    | true => rw [List.dropWhile_cons_of_pos (by simp [hd])] at h; exact ih c h
    | false =>
      rw [List.dropWhile_cons_of_neg (by simp [hd])] at h
      simp only [List.head?_cons, Option.some.injEq] at h
      exact h ▸ hd

/-- Membership survives `pyStripList` backwards. -/
theorem mem_pyStripList (l : List Char) (c : Char) (h : c ∈ pyStripList l) :
    c ∈ l := by
  unfold pyStripList at h
  rw [List.mem_reverse] at h
  have h1 := (List.dropWhile_sublist _).mem h
  rw [List.mem_reverse] at h1
  exact (List.dropWhile_sublist _).mem h1

/-- `pyStripList` preserves the no-adjacent-whitespace invariant. -/
theorem chain_pyStripList (l : List Char)
    (h : List.Chain' (fun a b => pySpace a = false ∨ pySpace b = false) l) :
    List.Chain' (fun a b => pySpace a = false ∨ pySpace b = false)
      (pyStripList l) := by
  unfold pyStripList
  have h1 : List.Chain' (fun a b => pySpace a = false ∨ pySpace b = false)
      (l.dropWhile pySpace) := by
    obtain ⟨pre, hpre⟩ := List.dropWhile_suffix (l := l) (p := pySpace)
    rw [← hpre] at h
    exact h.right_of_append
  have h2 : List.Chain' (fun a b => pySpace a = false ∨ pySpace b = false)
      ((l.dropWhile pySpace).reverse) := by
    rw [List.chain'_reverse]
    exact h1.imp (fun a b hab => hab.symm)
  have h3 : List.Chain' (fun a b => pySpace a = false ∨ pySpace b = false)
      ((l.dropWhile pySpace).reverse.dropWhile pySpace) := by
    obtain ⟨pre, hpre⟩ :=
      List.dropWhile_suffix (l := (l.dropWhile pySpace).reverse) (p := pySpace)
    rw [← hpre] at h2
    exact h2.right_of_append
  rw [List.chain'_reverse]
  exact h3.imp (fun a b hab => hab.symm)

/-- The first character of a stripped list is not whitespace. -/
theorem head_pyStripList (l : List Char) (c : Char)
    (h : (pyStripList l).head? = some c) : pySpace c = false := by
  unfold pyStripList at h
  rw [List.head?_reverse] at h
  have hne : (l.dropWhile pySpace).reverse.dropWhile pySpace ≠ [] := by
    intro hnil; rw [hnil] at h; simp at h
  obtain ⟨pre, hpre⟩ :=
    List.dropWhile_suffix (l := (l.dropWhile pySpace).reverse) (p := pySpace)
  have hlast : ((l.dropWhile pySpace).reverse.dropWhile pySpace).getLast? =
      (l.dropWhile pySpace).reverse.getLast? := by
    conv_rhs => rw [← hpre]
    exact (List.getLast?_append_of_ne_nil _ hne).symm
  rw [hlast, List.getLast?_reverse] at h
  exact head_dropWhile pySpace l c h

/-- The last character of a stripped list is not whitespace. -/
theorem last_pyStripList (l : List Char) (c : Char)
    (h : (pyStripList l).getLast? = some c) : pySpace c = false := by
  unfold pyStripList at h
  rw [List.getLast?_reverse] at h
  exact head_dropWhile pySpace _ c h

/-- Stripping a list whose two ends are not whitespace changes nothing. -/
theorem pyStripList_id (l : List Char)
    (h1 : ∀ c, l.head? = some c → pySpace c = false)
    (h2 : ∀ c, l.getLast? = some c → pySpace c = false) :
    pyStripList l = l := by
  unfold pyStripList
  have e1 : l.dropWhile pySpace = l := by
    cases l with
    | nil => rfl
    | cons d ds =>
      have := h1 d rfl
      rw [List.dropWhile_cons_of_neg (by simp [this])]
  rw [e1]
  have e2 : l.reverse.dropWhile pySpace = l.reverse := by
    cases hr : l.reverse with
    | nil => rfl
    | cons d ds =>
      have hd : l.getLast? = some d := by
        rw [← List.head?_reverse, hr, List.head?_cons]
      have := h2 d hd
      rw [hr] at *
      rw [List.dropWhile_cons_of_neg (by simp [this])]
  rw [e2, List.reverse_reverse]

/-- `replSpace` fixes every character that is a plain space or not
whitespace. -/
theorem replSpace_id (c : Char) (h : pySpace c = true → c = ' ') :
    replSpace c = c := by
  unfold replSpace
  split
  · rename_i hc
    simp only [Bool.or_eq_true, decide_eq_true_eq] at hc
    have hsp : pySpace c = true := by
      rcases hc with ((h1 | h1) | h1) | h1 <;> subst h1 <;> decide
    rw [h hsp]
  · rfl

/-- Mapping `replSpace` over an already-clean list changes nothing. -/
theorem map_replSpace_id :
    ∀ l : List Char, (∀ c ∈ l, pySpace c = true → c = ' ') →
      l.map replSpace = l := by
  intro l
  induction l with
  | nil => intro _; rfl
  | cons d ds ih =>
    intro h
    simp only [List.map_cons]
    rw [replSpace_id d (h d (List.mem_cons_self d ds)),
      ih (fun c hc => h c (List.mem_cons_of_mem d hc))]

/-- Every whitespace character surviving `norm_space` is a plain ASCII
space. -/
theorem norm_space_chars (s : String) (c : Char) (hc : c ∈ (norm_space s).data)
    (hsp : pySpace c = true) : c = ' ' := by
  by_cases hs : s = ""
  · unfold norm_space at hc
    rw [if_pos hs, hs] at hc
    simp at hc
  · unfold norm_space at hc
    rw [if_neg hs] at hc
    have hc' : c ∈ pyStripList (collapseWs false (s.data.map replSpace)) := hc
    have := mem_pyStripList _ c hc'
    rcases mem_collapseWs c _ false this with h | h
    · exact h
    · rw [h] at hsp; cases hsp

/-- `norm_space` is idempotent. -/
theorem norm_space_idem (s : String) :
    norm_space (norm_space s) = norm_space s := by
  by_cases hs : s = ""
  · subst hs; rfl
  · have hr : norm_space s =
        String.mk (pyStripList (collapseWs false (s.data.map replSpace))) := by
      unfold norm_space
      rw [if_neg hs]
    by_cases hempty : norm_space s = ""
    · rw [hempty]; rfl
    · have hP1 : ∀ c ∈ pyStripList (collapseWs false (s.data.map replSpace)),
          pySpace c = true → c = ' ' := by
        intro c hc hsp
        have hc2 : c ∈ (norm_space s).data := by rw [hr]; exact hc
        exact norm_space_chars s c hc2 hsp
      have hchain :=
        chain_pyStripList _ (chain_collapseWs (s.data.map replSpace) false)
      have hmap := map_replSpace_id _ hP1
      have hcoll := (collapseWs_id _ hP1 hchain).1
      have hstrip :=
        pyStripList_id (pyStripList (collapseWs false (s.data.map replSpace)))
          (fun c hc =>
            head_pyStripList (collapseWs false (s.data.map replSpace)) c hc)
          (fun c hc =>
            last_pyStripList (collapseWs false (s.data.map replSpace)) c hc)
      rw [hr]
      unfold norm_space
      rw [if_neg (by rw [← hr]; exact hempty)]
      have hdata : (String.mk (pyStripList (collapseWs false
          (s.data.map replSpace)))).data =
          pyStripList (collapseWs false (s.data.map replSpace)) := rfl
      rw [hdata, hmap, hcoll, hstrip]

/-! ## Helper lemmas about the parse loop -/

/-- The accumulator loop of `parse_afisha` is the `filterMap` of the
per-card assembly: each card contributes its assembled event or nothing,
independently of the other cards. -/
theorem parseLoop_eq (u y : String) :
    ∀ (items : List (List Node × Node)) (acc : List Event),
      parseLoop u y items acc =
        acc ++ items.filterMap (fun p => parseItem u y p.1 p.2) := by
  intro items
  induction items with
  | nil => intro acc; simp [parseLoop]
  | cons p rest ih =>
    intro acc
    obtain ⟨anc, item⟩ := p
    cases hp : parseItem u y anc item with
    | none =>
      simp only [parseLoop, hp, List.filterMap_cons]
      exact ih acc
    | some e =>
      simp only [parseLoop, hp, List.filterMap_cons]
      rw [ih]
      simp

/-- Every event assembled by `parseItem` carries the identity key built
from its own four fields with the literal separators of source line 215. -/
theorem parseItem_id (u y : String) (anc : List Node) (item : Node) (e : Event)
    (h : parseItem u y anc item = some e) :
    e.id = e.date ++ " " ++ e.time ++ " | " ++ e.title ++ " | " ++ e.url := by
  unfold parseItem at h
  repeat' (first | (split at h) | (simp only [] at h))
  all_goals first
    | (injection h with h; subst h; rfl)
    | cases h

/-! ## Claim theorems -/

/-- C1: for a card whose nearest ancestor class contains
`item_mounth-2025-11`, with day label `5 Ноября, Ср`, time `11:00`, title
`Буратино` and relative href `/afisha/buratino#tickets`, parsed with base
URL `https://puppet-minsk.by/afisha`, `parse_afisha` produces exactly one
event: date `05.11.2025` (container year-month winning, day padded), time
`11:00`, title `Буратино`, and the href resolved to
`https://puppet-minsk.by/afisha/buratino#tickets`.  The current-year
parameter is deliberately `2024` to show the container's year prevails. -/
theorem claim1_card_scenario :
    parse_afisha "https://puppet-minsk.by/afisha" "2024" [doc1] =
      [⟨"05.11.2025 11:00 | Буратино | https://puppet-minsk.by/afisha/buratino#tickets",
        "05.11.2025", "11:00", "Буратино",
        "https://puppet-minsk.by/afisha/buratino#tickets"⟩] := by
  decide

/-- C2: every event assembled by `parse_afisha` has
`id = "{date} {time} | {title} | {url}"` with exactly those separators,
built from its own four fields; determinism over a fixed raw candidate
holds because the assembly is a pure function of the card. -/
theorem claim2_identity_key (u y : String) (roots : List Node) (e : Event)
    (h : e ∈ parse_afisha u y roots) :
    e.id = e.date ++ " " ++ e.time ++ " | " ++ e.title ++ " | " ++ e.url := by
  unfold parse_afisha at h
  rw [parseLoop_eq] at h
  rw [List.nil_append] at h
  obtain ⟨p, hp, hpe⟩ := List.mem_filterMap.mp h
  exact parseItem_id u y p.1 p.2 e hpe

/-- Witness for C2: the identity key of the scenario-2 event, via
`claim2_identity_key` at the concrete document. -/
theorem claim2_identity_key_witness :
    ("05.11.2025 11:00 | Буратино | https://puppet-minsk.by/afisha/buratino#tickets"
      : String) =
      "05.11.2025" ++ " " ++ "11:00" ++ " | " ++ "Буратино" ++ " | " ++
        "https://puppet-minsk.by/afisha/buratino#tickets" :=
  claim2_identity_key "https://puppet-minsk.by/afisha" "2024" [doc1]
    ⟨"05.11.2025 11:00 | Буратино | https://puppet-minsk.by/afisha/buratino#tickets",
      "05.11.2025", "11:00", "Буратино",
      "https://puppet-minsk.by/afisha/buratino#tickets"⟩
    (by decide)

/-- Counterexample to C3 as stated: a card whose time label holds only
whitespace text — so the element is truthy but its text is empty after
normalisation — is NOT rejected: `parse_afisha` still produces its event,
with an empty `time` field. -/
theorem claim3_counterexample :
    (parse_afisha "https://puppet-minsk.by/afisha" "2024" [docEmptyTime]).map
        Event.time = [""] := by
  decide

/-- C3 as amended.  (1) Universally: a card yields an event only when the
day label is located, a day number is extracted from it and the month
resolution produces a truthy month — contrapositively, the card is
rejected whenever the day or the month ends up absent (the year never
ends up absent: the current system year is substituted).  (2) A card
whose day label holds no digits is rejected.  (3) A located but childless
time label skips the card — by element truthiness at line 150, not by any
text check.  (4) An empty time-label TEXT does not itself cause
rejection: the whitespace-only time label still yields one event. -/
theorem claim3_rejection_behaviour :
    (∀ (u y : String) (anc : List Node) (item : Node) (e : Event),
      parseItem u y anc item = some e →
        ∃ info pDay day0 monthWord mn,
          selectOne item (fun n => hasClass n "afisha-info") = some info ∧
          selectOne info (fun n => hasClass n "afisha-day") = some pDay ∧
          extract_day_and_month_from_text (getTextSp pDay)
            = some (day0, monthWord) ∧
          resolveMonthNum ((extractYMChain (item :: anc)).map (fun p => p.2))
            monthWord = some mn ∧
          mn ≠ "") ∧
    parse_afisha "https://puppet-minsk.by/afisha" "2024" [docNoDay] = [] ∧
    parse_afisha "https://puppet-minsk.by/afisha" "2024" [docTimeNoChildren]
      = [] ∧
    (parse_afisha "https://puppet-minsk.by/afisha" "2024" [docEmptyTime]).length
      = 1 := by
  refine ⟨?_, by decide, by decide, by decide⟩
  intro u y anc item e h
  unfold parseItem at h
  repeat' (first | (split at h) | (simp only [] at h))
  all_goals first
    | (injection h with h
       refine ⟨_, _, _, _, _, by assumption, by assumption, by assumption,
         by assumption, ?_⟩
       simp_all [truthyOptStr])
    | cases h

/-- Witness for C3 as amended: the universal part applied to the
scenario-2 card parsed standalone (no bucket ancestor, so the month comes
from the word `ноября` and the year from the 2024 parameter), plus the
concrete empty-time production. -/
theorem claim3_rejection_behaviour_witness :
    (∃ info pDay day0 monthWord mn,
      selectOne card1 (fun n => hasClass n "afisha-info") = some info ∧
      selectOne info (fun n => hasClass n "afisha-day") = some pDay ∧
      extract_day_and_month_from_text (getTextSp pDay)
        = some (day0, monthWord) ∧
      resolveMonthNum ((extractYMChain (card1 :: [])).map (fun p => p.2))
        monthWord = some mn ∧
      mn ≠ "") ∧
    (parse_afisha "https://puppet-minsk.by/afisha" "2024" [docEmptyTime]).length
      = 1 :=
  ⟨claim3_rejection_behaviour.1 "https://puppet-minsk.by/afisha" "2024" [] card1
      ⟨"05.11.2024 11:00 | Буратино | https://puppet-minsk.by/afisha/buratino#tickets",
        "05.11.2024", "11:00", "Буратино",
        "https://puppet-minsk.by/afisha/buratino#tickets"⟩
      (by decide),
   claim3_rejection_behaviour.2.2.2⟩

/-- Counterexample to C4 as stated: on the tabular-layout row the parser
does not produce exactly one event. -/
theorem claim4_counterexample :
    (parse_afisha "https://puppet-minsk.by/afisha" "2024" [tabularDoc]).length
      ≠ 1 := by
  decide

/-- C4 as amended: `parse_afisha` extracts only card-layout nodes
(`.afisha_listcontainer .afisha_item`); a tabular-layout row — first cell
`11.11.2025  19:00`, ticket-vendor link `https://tce.by/show/123` titled
`Записки юного врача` — yields no event at all. -/
theorem claim4_tabular_not_extracted :
    parse_afisha "https://puppet-minsk.by/afisha" "2024" [tabularDoc] = [] := by
  decide

/-- C5: month precedence.  A truthy container month is used unchanged
regardless of any month word; with no container month, the month word's
dictionary value is used; with neither (day label `5, Ср`, no bucket
ancestor) the card is rejected and no event is produced — and the parse
returns normally. -/
theorem claim5_month_precedence :
    (∀ (m : String) (w : Option String), m ≠ "" →
        resolveMonthNum (some m) w = some m) ∧
    (∀ (w mn : String), monthsLookup (pyLower w) = some mn →
        resolveMonthNum none (some w) = some mn) ∧
    parse_afisha "https://puppet-minsk.by/afisha" "2024" [docNoMonth] = [] := by
  refine ⟨?_, ?_, by decide⟩
  · intro m w hm
    unfold resolveMonthNum truthyOptStr
    simp [hm]
  · intro w mn hw
    unfold resolveMonthNum truthyOptStr
    by_cases hwe : w = ""
    · subst hwe
      have hnone : monthsLookup (pyLower "") = none := by decide
      rw [hnone] at hw
      cases hw
    · simp only [Bool.false_eq_true, if_false, if_neg hwe, hw]

/-- Witness for C5: container month `11` wins over the word `декабря`; with
no container month the word `ноября` resolves to `11`. -/
theorem claim5_month_precedence_witness :
    resolveMonthNum (some "11") (some "декабря") = some "11" ∧
    resolveMonthNum none (some "ноября") = some "11" :=
  ⟨claim5_month_precedence.1 "11" (some "декабря") (by decide),
   claim5_month_precedence.2.1 "ноября" "11" (by decide)⟩

/-- C6 is false of the program: with `urljoin`'s `ValueError` path made
explicit, a card whose detail-link href is `//[` — day, time, title and
month bucket all well-formed — makes the parse raise
`Invalid IPv6 URL` at the line-210 join instead of skipping the card, so
parsing is not exception-free.  On a document whose hrefs split cleanly
the error-aware parse agrees with the total embedding. -/
theorem claim6_parse_raises :
    parse_afishaExc "https://puppet-minsk.by/afisha" "2024" [docBadHref]
      = Except.error "Invalid IPv6 URL" ∧
    parse_afishaExc "https://puppet-minsk.by/afisha" "2024" [doc1]
      = Except.ok (parse_afisha "https://puppet-minsk.by/afisha" "2024" [doc1]) :=
  ⟨rfl, rfl⟩

/-- C7: `norm_space` is idempotent, and every whitespace character in its
output — in particular every listed Unicode space variant — is a plain
ASCII space. -/
theorem claim7_normalize_idempotent :
    (∀ x : String, norm_space (norm_space x) = norm_space x) ∧
    (∀ (x : String) (c : Char), c ∈ (norm_space x).data →
        pySpace c = true → c = ' ') :=
  ⟨norm_space_idem, norm_space_chars⟩

/-- Witness for C7: a string with an NBSP and a thin space, normalised;
idempotence and the plain-space property at that concrete input. -/
theorem claim7_normalize_idempotent_witness :
    norm_space (norm_space "a\u00A0\u2009b") = norm_space "a\u00A0\u2009b" ∧
    (' ' : Char) = ' ' :=
  ⟨claim7_normalize_idempotent.1 "a\u00A0\u2009b",
   claim7_normalize_idempotent.2 "a\u00A0\u2009b" ' ' (by decide) (by decide)⟩

/-- C8: reloading after saving preserves the seen-set's membership exactly,
and loading a missing or unreadable store yields the empty set, never an
error. -/
theorem claim8_seen_roundtrip :
    (∀ store : Option (List String),
        load_seen (save_seen (load_seen store)) = load_seen store) ∧
    load_seen none = [] := by
  constructor
  · intro store
    cases store with
    | none => rfl
    | some l =>
      show (l.dedup).dedup = l.dedup
      exact List.dedup_idem
  · rfl

/-- C9: no range validation of the day — the day label `99 Ноября, Вт`
yields the day string `99` and an event dated `99.11.2025` rather than a
rejection. -/
theorem claim9_no_day_validation :
    extract_day_and_month_from_text "99 Ноября, Вт" =
      some ("99", some "ноября") ∧
    (parse_afisha "https://puppet-minsk.by/afisha" "2025" [docDay99]).map
        Event.date = ["99.11.2025"] := by
  refine ⟨by decide, by decide⟩

/-- C10: a card whose detail link carries a present but empty `href` is
not rejected; the empty href resolves to the page's own base URL with a
trailing slash. -/
theorem claim10_empty_href :
    parse_afisha "https://puppet-minsk.by/afisha" "2024" [docEmptyHref] =
      [⟨"05.11.2025 11:00 | Буратино | https://puppet-minsk.by/afisha/",
        "05.11.2025", "11:00", "Буратино",
        "https://puppet-minsk.by/afisha/"⟩] := by
  decide

end PuppetWatcher
